import Mathlib

set_option maxRecDepth 8000

/-!
Verification of the incremental page-capture engine of the box.com
downloader, as implemented by Scraper.capture_preview_images_cdp in
src/scraper.py together with the injected browser-side helper object
window._blobCapture (the canonical, fingerprint-based implementation).

The embedding below translates, line by line:
  - hashDataUrl            (scraper.py lines 283-290), the content fingerprint;
  - collectNewBlobs        (lines 292-369), the rendering-surface scan with
    its high/low resolution bucketing and its seen-set bookkeeping;
  - scroll / getScrollInfo (lines 409-444), the scroll driver and the
    independent scroll-state read;
  - the python capture loop (lines 512-609), including the per-candidate
    persist with its sequence-number reservation and rollback.

Payload strings (data URLs, base64 segments, hashes) are modelled as
List Char.  The browser is an adversarial oracle: each loop iteration i
reads an IterInput from a stream, carrying the DOM contents observed by
the two scans of that iteration and the raw numbers the scroll driver
and getScrollInfo observe.  base64.b64decode is abstracted as a
parameter decode : List Char -> Option (List Char); a None result is a
decode failure (binascii.Error).  Persisting mirrors the python order
of operations: the file is opened (created/truncated) before the decode
is attempted, so a decode failure leaves an empty file behind.

Each iteration appends to a ghost event log (one Ev per attempted
persist, recording the iteration index, the reserved sequence number,
the candidate fingerprint and the success bit).  The log does not feed
back into control flow; it only makes the trace observable to theorems.
-/

namespace BoxCapture

/-- JS s.startsWith(p) on List Char strings. -/
def hasLead (p s : List Char) : Bool := decide (s.take p.length = p)

/-- Python membership test "p in s" for substrings (used for the extension
choice, "ext = png if png in header else jpg"). -/
def hasSub (n : List Char) : List Char → Bool
  | [] => n.isEmpty
  | c :: cs => hasLead n (c :: cs) || hasSub n cs

/-- JS dataUrl.split(the comma)[1] with the or-empty-string fallback: the
segment strictly between the first comma and the following comma or end;
empty when the string has no comma. -/
def jsSecond (s : List Char) : List Char :=
  if s.contains ',' then
    ((s.dropWhile (fun c => c != ',')).drop 1).takeWhile (fun c => c != ',')
  else []

/-- JS s.substring(a, b) for 0 <= a <= b (clamping at the length). -/
def jsSub (s : List Char) (a b : Nat) : List Char := (s.take b).drop a

/-- The content fingerprint: _blobCapture.hashDataUrl (scraper.py 283-290).
The key is the whole base64 segment when it is shorter than 1000
characters, and otherwise the concatenation of the windows
substring(100, 300), substring(len/2, len/2 + 200) and
substring(len - 300) of that segment. -/
def hashDataUrl (u : List Char) : List Char :=
  let data := jsSecond u
  if data.length < 1000 then data
  else
    jsSub data 100 300
      ++ jsSub data (data.length / 2) (data.length / 2 + 200)
      ++ data.drop (data.length - 300)

/-- Python s.split(the comma, 1) unpacked into (header, data); None models
the ValueError raised when the string has no comma. -/
def pySplitOnce (s : List Char) : Option (List Char × List Char) :=
  if s.contains ',' then
    some (s.takeWhile (fun c => c != ','), (s.dropWhile (fun c => c != ',')).drop 1)
  else none

/-- One img element as the scan observes it: its src, the result of
captureImage when the src is a blob URL (None when the canvas draw threw
and the promise resolved null), its bounding rect and its intrinsic
resolution. -/
structure ImgElem where
  src : List Char
  captured : Option (List Char)
  rectW : Int
  rectH : Int
  naturalWidth : Nat
  naturalHeight : Nat
deriving DecidableEq

/-- One canvas element as the scan observes it: buffer size, rendered
height, and the toDataURL result (None when toDataURL threw). -/
structure CanvasElem where
  width : Nat
  height : Nat
  rectH : Int
  toDataUrl : Option (List Char)
deriving DecidableEq

/-- The imgData record built by collectNewBlobs for an accepted candidate. -/
structure ImgData where
  dataUrl : List Char
  width : Nat
  height : Nat
  hash : List Char
deriving DecidableEq

/-- The dataUrl obtained for an img element (collectNewBlobs lines 309-314):
captureImage for blob URLs, the src itself for data URLs longer than 1000
characters, nothing otherwise. -/
def imgDataUrl (e : ImgElem) : Option (List Char) :=
  if hasLead ['b', 'l', 'o', 'b', ':'] e.src then e.captured
  else if hasLead ['d', 'a', 't', 'a', ':'] e.src ∧ 1000 < e.src.length then some e.src
  else none

/-- The candidate produced by one img element in collectNewBlobs
(lines 302-328): visible-size and fallback-width filters, then the
dataUrl length gate, then the seen-set membership test against the set
as it was when the scan started. -/
def imgCandidate (fbW : Nat) (seen : List (List Char)) (e : ImgElem) : Option ImgData :=
  if 50 < e.rectW ∧ 50 < e.rectH ∧ fbW ≤ e.naturalWidth then
    match imgDataUrl e with
    | some u =>
      if 1000 < u.length then
        if hashDataUrl u ∈ seen then none
        else some ⟨u, e.naturalWidth, e.naturalHeight, hashDataUrl u⟩
      else none
    | none => none
  else none

/-- The candidate produced by one canvas element in collectNewBlobs
(lines 331-352). -/
def canvasCandidate (fbW : Nat) (seen : List (List Char)) (c : CanvasElem) : Option ImgData :=
  if fbW ≤ c.width ∧ 100 < c.rectH then
    match c.toDataUrl with
    | some u =>
      if 1000 < u.length then
        if hashDataUrl u ∈ seen then none
        else some ⟨u, c.width, c.height, hashDataUrl u⟩
      else none
    | none => none
  else none

/-- Every candidate one scan constructs, img elements first then canvas
elements, in element order. -/
def scanCandidates (fbW : Nat) (seen : List (List Char)) (imgs : List ImgElem)
    (cvs : List CanvasElem) : List ImgData :=
  imgs.filterMap (imgCandidate fbW seen) ++ cvs.filterMap (canvasCandidate fbW seen)

/-- The high/low resolution buckets, pushed in candidate order exactly as
the source pushes into highResImages and lowResImages. -/
def buckets (minW : Nat) : List ImgData → List ImgData × List ImgData
  | [] => ([], [])
  | d :: ds =>
    let p := buckets minW ds
    if minW ≤ d.width then (d :: p.1, p.2) else (p.1, d :: p.2)

/-- The whole of _blobCapture.collectNewBlobs (lines 292-369): returns the
results array and the updated seenBlobs set.  The high-resolution bucket
is returned whenever it is nonempty; the low-resolution bucket is
returned only when no high-resolution candidate exists; exactly the
hashes of the returned candidates are added to seenBlobs, at the end of
the scan. -/
def collectNewBlobs (minW fbW : Nat) (seen : List (List Char)) (imgs : List ImgElem)
    (cvs : List CanvasElem) : List ImgData × List (List Char) :=
  let b := buckets minW (scanCandidates fbW seen imgs cvs)
  let results := if b.1 = [] ∧ b.2 ≠ [] then b.2 else b.1
  (results, seen ++ results.map (fun d => d.hash))

/-- Raw observation backing one _blobCapture.scroll call: whether a
scrollable container was found, and the scrollTop before and after the
attempted move (the window scrollY for the fallback branch). -/
structure ScrollObs where
  found : Bool
  oldTop : Int
  newTop : Int
deriving DecidableEq

/-- The record scroll() returns (lines 409-426). -/
structure AdvanceRes where
  scrolled : Bool
  atEnd : Bool
deriving DecidableEq

/-- _blobCapture.scroll: at the end exactly when a container was found,
the position did not change, and the position is away from the origin;
the window-scroll fallback never reports atEnd. -/
def advance (o : ScrollObs) : AdvanceRes :=
  if o.found then
    if o.newTop = o.oldTop ∧ 0 < o.oldTop then ⟨false, true⟩ else ⟨true, false⟩
  else ⟨decide (o.newTop ≠ o.oldTop), false⟩

/-- Raw observation backing one _blobCapture.getScrollInfo call. -/
structure ScrollInfoObs where
  scrollTop : Int
  scrollHeight : Int
  clientHeight : Int
deriving DecidableEq

/-- The atEnd field of getScrollInfo (lines 428-444): computed from the
absolute position against the extent with a 50 pixel tolerance margin,
independently of any failed-move signal. -/
def infoAtEnd (s : ScrollInfoObs) : Bool :=
  decide (s.scrollHeight - 50 ≤ s.scrollTop + s.clientHeight)

/-- File extensions the persister writes. -/
inductive Ext where
  | png
  | jpg
deriving DecidableEq

/-- Ghost log entry for one attempted persist: loop iteration, the
reserved (1-based) sequence number, the candidate fingerprint, and
whether the write succeeded. -/
structure Ev where
  iter : Nat
  seq : Nat
  hash : List Char
  ok : Bool
deriving DecidableEq

/-- Loop state: the browser-side seenBlobs set, the python counters
page_count, no_new_count and scroll_count, a ghost count of scans
performed, the output directory contents (filename, bytes), and the
ghost persist log. -/
structure LoopState where
  seen : List (List Char)
  pageCount : Nat
  noNew : Nat
  scrollCount : Nat
  scans : Nat
  fs : List ((Nat × Ext) × List Char)
  log : List Ev
deriving DecidableEq

/-- Session configuration: the optional max_pages cap and the abstracted
base64.b64decode. -/
structure Ctx where
  maxPages : Option Nat
  decode : List Char → Option (List Char)

/-- The python guard "max_pages and page_count >= max_pages", with python
truthiness (None and 0 are both falsy). -/
def pyCap : Option Nat → Nat → Bool
  | none, _ => false
  | some n, pc => if n = 0 then false else decide (n ≤ pc)

/-- Python "a or d" for an optional integer against an integer default. -/
def pyOrN : Option Nat → Nat → Nat
  | none, d => d
  | some n, d => if n = 0 then d else n

/-- Python "a or b" for two optional integers. -/
def pyOrOpt : Option Nat → Option Nat → Option Nat
  | none, b => b
  | some n, b => if n = 0 then b else some n

/-- The base of the scroll-attempt cap as the claim words it: max pages
if set, else the detected total, else the default 500. -/
def capBase (mp tpd : Option Nat) : Nat :=
  match mp with
  | some n => n
  | none =>
    match tpd with
    | some t => t
    | none => 500

/-- Output filename, identified by its sequence number and extension
(the rendering page_NNNN.ext is injective in this pair). -/
def fsWrite (fs : List ((Nat × Ext) × List Char)) (k : Nat × Ext) (v : List Char) :
    List ((Nat × Ext) × List Char) :=
  (k, v) :: fs.filter (fun kv => kv.1 ≠ k)

/-- One attempted persist (loop lines 536-548 and 582-593): reserve the
next sequence number, split the data URL (a missing comma raises before
the file is opened), open the file (create/truncate), decode, write.
A decode failure leaves the opened file empty and rolls the counter
back; a split failure rolls the counter back with no file touched. -/
def persistOne (ctx : Ctx) (i : Nat) (st : LoopState) (d : ImgData) : LoopState :=
  let pc := st.pageCount + 1
  match pySplitOnce d.dataUrl with
  | none =>
    { st with log := st.log ++ [⟨i, pc, d.hash, false⟩] }
  | some (hd, data) =>
    let ext : Ext := if hasSub ['p', 'n', 'g'] hd then .png else .jpg
    match ctx.decode data with
    | none =>
      { st with fs := fsWrite st.fs (pc, ext) [],
                log := st.log ++ [⟨i, pc, d.hash, false⟩] }
    | some bytes =>
      { st with pageCount := pc,
                fs := fsWrite st.fs (pc, ext) bytes,
                log := st.log ++ [⟨i, pc, d.hash, true⟩] }

/-- Persisting one batch of scan results, with the per-candidate cap check
"if max_pages and page_count >= max_pages: break" before each persist. -/
def persistBatch (ctx : Ctx) (i : Nat) (st : LoopState) : List ImgData → LoopState
  | [] => st
  | d :: ds =>
    if pyCap ctx.maxPages st.pageCount then st
    else persistBatch ctx i (persistOne ctx i st d) ds

/-- The DOM and scroll observations one loop iteration consumes: the
elements seen by the main scan, the scroll and scroll-info reads, and
the elements seen by the final settle-and-rescan scan (used only on the
corroborated at-end path). -/
structure IterInput where
  imgs : List ImgElem
  canvases : List CanvasElem
  scroll : ScrollObs
  info : ScrollInfoObs
  finalImgs : List ImgElem
  finalCanvases : List CanvasElem

/-- Termination reasons, tagging the four exit points of the python loop:
the cap break (line 521), the corroborated at-end break (line 594), the
stall bound in the while condition, and the scroll-attempt bound in the
while condition.  The python function itself returns only page_count. -/
inductive Reason where
  | capped
  | atEnd
  | stalled
  | maxScrolls
deriving DecidableEq

/-- The scan-persist-count-scroll part of one iteration (lines 524-561):
collect with the default thresholds (minWidth 1000, fallbackMinWidth
850), persist the batch, update no_new_count from whether the scan
returned anything, perform the scroll. -/
def afterScan (ctx : Ctx) (i : Nat) (inp : IterInput) (st : LoopState) : LoopState :=
  let c := collectNewBlobs 1000 850 st.seen inp.imgs inp.canvases
  let st1 : LoopState := { st with seen := c.2, scans := st.scans + 1 }
  let st2 := persistBatch ctx i st1 c.1
  { st2 with noNew := if c.1 = [] then st.noNew + 1 else 0,
             scrollCount := st2.scrollCount + 1 }

/-- The settle-and-rescan pass taken on the corroborated at-end path
(lines 567-594): one more collect, persist its candidates (with the same
per-candidate cap check), then stop. -/
def finalPass (ctx : Ctx) (i : Nat) (inp : IterInput) (st : LoopState) : LoopState :=
  let c := collectNewBlobs 1000 850 st.seen inp.finalImgs inp.finalCanvases
  persistBatch ctx i { st with seen := c.2, scans := st.scans + 1 } c.1

/-- One pass of the while body: the cap break, then scan/persist/scroll,
then the at-end check corroborated by the independent getScrollInfo
read.  inl is the state carried into the next iteration; inr is an
exit. -/
def loopIter (ctx : Ctx) (i : Nat) (inp : IterInput) (st : LoopState) :
    LoopState ⊕ (LoopState × Reason) :=
  if pyCap ctx.maxPages st.pageCount then .inr (st, .capped)
  else
    let st4 := afterScan ctx i inp st
    if (advance inp.scroll).atEnd && infoAtEnd inp.info then
      .inr (finalPass ctx i inp st4, .atEnd)
    else .inl st4

/-- The while loop, fueled by the scroll-attempt budget: the condition
no_new_count < 15 is checked first (matching the and short-circuit),
then the scroll budget, then one body pass. -/
def loopGo (ctx : Ctx) (stream : Nat → IterInput) : Nat → Nat → LoopState → LoopState × Reason
  | _, 0, st => if 15 ≤ st.noNew then (st, .stalled) else (st, .maxScrolls)
  | i, fuel + 1, st =>
    if 15 ≤ st.noNew then (st, .stalled)
    else
      match loopIter ctx i (stream i) st with
      | .inl st1 => loopGo ctx stream (i + 1) fuel st1
      | .inr r => r

/-- The initial loop state (fresh _blobCapture injection, empty output
directory, all counters zero). -/
def initState : LoopState := ⟨[], 0, 0, 0, 0, [], []⟩

/-- The whole capture run (lines 512-609): max_scrolls is
(max_pages or total_pages or 500) * 3 where total_pages is
page_info total or page_info estimated, with python or-falsiness. -/
def runCapture (ctx : Ctx) (totalTxt estimated : Option Nat) (stream : Nat → IterInput) :
    LoopState × Reason :=
  let totalPages := pyOrOpt totalTxt estimated
  let maxScrolls := (pyOrN ctx.maxPages (pyOrN totalPages 500)) * 3
  loopGo ctx stream 0 maxScrolls initState

/-- The state reached by one body pass, whether it continues or exits. -/
def outState : LoopState ⊕ (LoopState × Reason) → LoopState
  | .inl s => s
  | .inr (s, _) => s

/-- Adjacency law of reserved sequence numbers in the persist log: a
success advances the number, a failure releases it for the next
attempt. -/
def evStep (a b : Ev) : Prop := b.seq = if a.ok then a.seq + 1 else a.seq

/-- Log/seen-set invariant: every logged fingerprint is in the seen set,
and logs of distinct iterations never share a fingerprint. -/
def LogInv (st : LoopState) : Prop :=
  (∀ e ∈ st.log, e.hash ∈ st.seen) ∧
  ∀ e1 ∈ st.log, ∀ e2 ∈ st.log, e1.iter ≠ e2.iter → e1.hash ≠ e2.hash

/-- Sequence-number trace invariant: the log obeys evStep, and the
page counter agrees with the last logged reservation. -/
def SeqInv (st : LoopState) : Prop :=
  st.log.Chain' evStep ∧
  ∀ e, st.log.getLast? = some e → st.pageCount + 1 = if e.ok then e.seq + 1 else e.seq

/-- Contiguity invariant: the sequence numbers of the successful persists,
in order, are exactly 1..page_count. -/
def SeqRange (st : LoopState) : Prop :=
  ((st.log.filter (fun e => e.ok)).map (fun e => e.seq)) = List.range' 1 st.pageCount

/-- Cap invariant for max_pages = N: the page counter and every reserved
sequence number stay at or below N. -/
def CapInv (N : Nat) (st : LoopState) : Prop :=
  st.pageCount ≤ N ∧ ∀ e ∈ st.log, e.seq ≤ N

/-- A candidate whose persist succeeds: its data URL splits at a comma
and the base64 segment decodes. -/
def PersistOk (ctx : Ctx) (d : ImgData) : Prop :=
  ∃ hd dt, pySplitOnce d.dataUrl = some (hd, dt) ∧ (ctx.decode dt).isSome = true

/-! Concrete inputs used by witnesses and counterexamples.  The data URLs
are just over the 1000-character gate, with commaless base64 segments
shorter than 1000 characters, so their fingerprint is the whole
segment. -/

/-- Base64 segment of 995 letters a. -/
def dataA : List Char := List.replicate 995 'a'

/-- Base64 segment of 995 letters b. -/
def dataB : List Char := List.replicate 995 'b'

/-- Base64 segment of 995 letters x (the one the decode oracle of the
failure scenarios rejects). -/
def dataX : List Char := List.replicate 995 'x'

/-- Data URL carrying dataA (header mentions png). -/
def urlA : List Char := ['d', 'a', 't', 'a', ':', 'p', 'n', 'g', ','] ++ dataA

/-- Data URL carrying dataB. -/
def urlB : List Char := ['d', 'a', 't', 'a', ':', 'p', 'n', 'g', ','] ++ dataB

/-- Data URL carrying dataX. -/
def urlX : List Char := ['d', 'a', 't', 'a', ':', 'p', 'n', 'g', ','] ++ dataX

/-- A visible 1200-pixel-wide img element showing urlA. -/
def imgA : ImgElem := ⟨urlA, none, 60, 60, 1200, 1600⟩

/-- A visible 1100-pixel-wide img element showing urlB. -/
def imgB : ImgElem := ⟨urlB, none, 60, 60, 1100, 1600⟩

/-- A visible 1200-pixel-wide img element showing urlX. -/
def imgX : ImgElem := ⟨urlX, none, 60, 60, 1200, 1600⟩

/-- High-resolution twin: 1200 pixels wide, showing urlA. -/
def imgH : ImgElem := ⟨urlA, none, 60, 60, 1200, 1600⟩

/-- Low-resolution twin: 900 pixels wide (at least fallback 850, below
min 1000), showing the same urlA, hence the same fingerprint. -/
def imgL : ImgElem := ⟨urlA, none, 60, 60, 900, 1600⟩

/-- A scroll observation that moved (not at the end). -/
def scrollMove : ScrollObs := ⟨true, 0, 800⟩

/-- A scroll observation that failed to move away from the origin: the
driver reports atEnd. -/
def scrollEnd : ScrollObs := ⟨true, 5, 5⟩

/-- A scroll-state read far from the end. -/
def infoNotEnd : ScrollInfoObs := ⟨0, 100000, 100⟩

/-- A scroll-state read at the end (within the 50 pixel margin). -/
def infoEnd : ScrollInfoObs := ⟨100, 150, 100⟩

/-- An iteration observing nothing, scroll still moving. -/
def emptyIter : IterInput := ⟨[], [], scrollMove, infoNotEnd, [], []⟩

/-- An iteration observing imgA, scroll still moving. -/
def iterA : IterInput := ⟨[imgA], [], scrollMove, infoNotEnd, [], []⟩

/-- An iteration observing imgB, with a corroborated end-of-document and
an empty settle-and-rescan pass. -/
def iterBEnd : IterInput := ⟨[imgB], [], scrollEnd, infoEnd, [], []⟩

/-- An iteration observing nothing, with a corroborated end-of-document. -/
def iterEndEmpty : IterInput := ⟨[], [], scrollEnd, infoEnd, [], []⟩

/-- An iteration observing imgX, with a corroborated end-of-document. -/
def iterXEnd : IterInput := ⟨[imgX], [], scrollEnd, infoEnd, [], []⟩

/-- An iteration observing the failing imgX then imgA, scroll still
moving. -/
def iterXA : IterInput := ⟨[imgX, imgA], [], scrollMove, infoNotEnd, [], []⟩

/-- A decode oracle that always succeeds (well-formed base64). -/
def decOk : List Char → Option (List Char) := fun d => some d

/-- A decode oracle that rejects exactly dataX. -/
def decNoX : List Char → Option (List Char) := fun d => if d = dataX then none else some d

/-- Session with no cap and well-formed base64. -/
def ctxOk : Ctx := ⟨none, decOk⟩

/-- Session with no cap whose only candidate payload fails to decode. -/
def ctxBad : Ctx := ⟨none, fun _ => none⟩

/-- Session with max_pages = 5. -/
def ctx5 : Ctx := ⟨some 5, decOk⟩

/-- Session with max_pages = 1. -/
def ctx1 : Ctx := ⟨some 1, decOk⟩

/-- Session with no cap where dataX fails to decode. -/
def ctxNoX : Ctx := ⟨none, decNoX⟩

/-- Stream: imgA on iteration 0, imgB with end-of-document on iteration 1. -/
def streamAB : Nat → IterInput :=
  fun i => if i = 0 then iterA else if i = 1 then iterBEnd else emptyIter

/-- Stream: the failing imgX with end-of-document on iteration 0. -/
def streamX : Nat → IterInput := fun i => if i = 0 then iterXEnd else emptyIter

/-- Stream: end-of-document immediately, nothing to capture. -/
def streamEnd : Nat → IterInput := fun _ => iterEndEmpty

/-- Stream: a surface that never yields anything and never ends. -/
def streamNothing : Nat → IterInput := fun _ => emptyIter

/-- Stream: imgX (failing) and imgA on iteration 0, imgB with
end-of-document on iteration 1. -/
def streamXAB : Nat → IterInput :=
  fun i => if i = 0 then iterXA else if i = 1 then iterBEnd else emptyIter

/-- Stream: imgA and imgB together on iteration 0. -/
def streamAB0 : Nat → IterInput :=
  fun i => if i = 0 then ⟨[imgA, imgB], [], scrollMove, infoNotEnd, [], []⟩ else emptyIter

/-! Lemmas about the rendering-surface scan. -/

theorem buckets_eq (m : Nat) (l : List ImgData) :
    buckets m l = (l.filter (fun d => decide (m ≤ d.width)),
                   l.filter (fun d => decide (d.width < m))) := by
  induction l with
  | nil => rfl
  | cons d ds ih =>
    simp only [buckets, ih, List.filter_cons]
    by_cases h : m ≤ d.width
    · simp [h, Nat.not_lt.mpr h]
    · simp [h, Nat.lt_of_not_le h]

theorem imgCandidate_fresh {fbW : Nat} {seen : List (List Char)} {e : ImgElem} {d : ImgData}
    (he : imgCandidate fbW seen e = some d) : d.hash ∉ seen := by
  unfold imgCandidate at he
  split at he
  · rcases hu : imgDataUrl e with _ | u <;> rw [hu] at he <;> dsimp only at he
    · cases he
    · split_ifs at he with hlen hmem
      · cases he; exact hmem
  · cases he

theorem canvasCandidate_fresh {fbW : Nat} {seen : List (List Char)} {c : CanvasElem}
    {d : ImgData} (he : canvasCandidate fbW seen c = some d) : d.hash ∉ seen := by
  unfold canvasCandidate at he
  split at he
  · rcases hu : c.toDataUrl with _ | u <;> rw [hu] at he <;> dsimp only at he
    · cases he
    · split_ifs at he with hlen hmem
      · cases he; exact hmem
  · cases he

theorem imgCandidate_width {fbW : Nat} {seen : List (List Char)} {e : ImgElem} {d : ImgData}
    (he : imgCandidate fbW seen e = some d) : fbW ≤ d.width := by
  unfold imgCandidate at he
  split at he
  · next hsz =>
    rcases hu : imgDataUrl e with _ | u <;> rw [hu] at he <;> dsimp only at he
    · cases he
    · split_ifs at he with hlen hmem
      · cases he; exact hsz.2.2
  · cases he

theorem canvasCandidate_width {fbW : Nat} {seen : List (List Char)} {c : CanvasElem}
    {d : ImgData} (he : canvasCandidate fbW seen c = some d) : fbW ≤ d.width := by
  unfold canvasCandidate at he
  split at he
  · next hsz =>
    rcases hu : c.toDataUrl with _ | u <;> rw [hu] at he <;> dsimp only at he
    · cases he
    · split_ifs at he with hlen hmem
      · cases he; exact hsz.1
  · cases he

theorem scanCandidates_fresh {fbW : Nat} {seen : List (List Char)} {imgs : List ImgElem}
    {cvs : List CanvasElem} {d : ImgData} (h : d ∈ scanCandidates fbW seen imgs cvs) :
    d.hash ∉ seen := by
  unfold scanCandidates at h
  rcases List.mem_append.1 h with h | h <;> obtain ⟨e, _, he⟩ := List.mem_filterMap.1 h
  · exact imgCandidate_fresh he
  · exact canvasCandidate_fresh he

theorem scanCandidates_width {fbW : Nat} {seen : List (List Char)} {imgs : List ImgElem}
    {cvs : List CanvasElem} {d : ImgData} (h : d ∈ scanCandidates fbW seen imgs cvs) :
    fbW ≤ d.width := by
  unfold scanCandidates at h
  rcases List.mem_append.1 h with h | h <;> obtain ⟨e, _, he⟩ := List.mem_filterMap.1 h
  · exact imgCandidate_width he
  · exact canvasCandidate_width he

theorem collect_results_subset {m f : Nat} {s : List (List Char)} {I : List ImgElem}
    {C : List CanvasElem} : (collectNewBlobs m f s I C).1 ⊆ scanCandidates f s I C := by
  unfold collectNewBlobs
  dsimp only
  intro d hd
  split at hd
  · exact (List.mem_filter.1 ((buckets_eq m _ ▸ hd : d ∈ _))).1
  · exact (List.mem_filter.1 ((buckets_eq m _ ▸ hd : d ∈ _))).1

theorem collect_seen_eq (m f : Nat) (s : List (List Char)) (I : List ImgElem)
    (C : List CanvasElem) :
    (collectNewBlobs m f s I C).2 = s ++ ((collectNewBlobs m f s I C).1).map (fun d => d.hash) :=
  rfl

theorem collect_fresh {m f : Nat} {s : List (List Char)} {I : List ImgElem}
    {C : List CanvasElem} {a : List Char}
    (ha : a ∈ ((collectNewBlobs m f s I C).1).map (fun d => d.hash)) : a ∉ s := by
  obtain ⟨d, hd, rfl⟩ := List.mem_map.1 ha
  exact scanCandidates_fresh (collect_results_subset hd)

/-! Lemmas about the page persister. -/

theorem pyCap_none (pc : Nat) : pyCap none pc = false := rfl

theorem pyCap_some (n pc : Nat) : pyCap (some n) pc = if n = 0 then false else decide (n ≤ pc) :=
  rfl

theorem persistOne_fields (ctx : Ctx) (i : Nat) (st : LoopState) (d : ImgData) :
    (persistOne ctx i st d).seen = st.seen ∧ (persistOne ctx i st d).scans = st.scans ∧
    (persistOne ctx i st d).noNew = st.noNew ∧
    (persistOne ctx i st d).scrollCount = st.scrollCount := by
  unfold persistOne
  split
  · exact ⟨rfl, rfl, rfl, rfl⟩
  · dsimp only
    split <;> exact ⟨rfl, rfl, rfl, rfl⟩

theorem persistOne_log_pc (ctx : Ctx) (i : Nat) (st : LoopState) (d : ImgData) :
    ∃ b, (persistOne ctx i st d).log = st.log ++ [⟨i, st.pageCount + 1, d.hash, b⟩] ∧
      (persistOne ctx i st d).pageCount = if b then st.pageCount + 1 else st.pageCount := by
  unfold persistOne
  split
  · exact ⟨false, rfl, rfl⟩
  · dsimp only
    split
    · exact ⟨false, rfl, rfl⟩
    · exact ⟨true, rfl, rfl⟩

theorem persistBatch_fields (ctx : Ctx) (i : Nat) (st : LoopState) (ds : List ImgData) :
    (persistBatch ctx i st ds).seen = st.seen ∧ (persistBatch ctx i st ds).scans = st.scans ∧
    (persistBatch ctx i st ds).noNew = st.noNew ∧
    (persistBatch ctx i st ds).scrollCount = st.scrollCount := by
  induction ds generalizing st with
  | nil => exact ⟨rfl, rfl, rfl, rfl⟩
  | cons d ds ih =>
    unfold persistBatch
    split
    · exact ⟨rfl, rfl, rfl, rfl⟩
    · obtain ⟨h1, h2, h3, h4⟩ := ih (persistOne ctx i st d)
      obtain ⟨g1, g2, g3, g4⟩ := persistOne_fields ctx i st d
      exact ⟨h1.trans g1, h2.trans g2, h3.trans g3, h4.trans g4⟩

theorem persistBatch_log (ctx : Ctx) (i : Nat) (st : LoopState) (ds : List ImgData) :
    ∃ t, (persistBatch ctx i st ds).log = st.log ++ t ∧
      ∀ e ∈ t, e.iter = i ∧ e.hash ∈ ds.map (fun d => d.hash) := by
  induction ds generalizing st with
  | nil => exact ⟨[], by simp [persistBatch], by simp⟩
  | cons d ds ih =>
    unfold persistBatch
    split
    · exact ⟨[], by simp, by simp⟩
    · obtain ⟨t, ht, hall⟩ := ih (persistOne ctx i st d)
      obtain ⟨b, hb, _⟩ := persistOne_log_pc ctx i st d
      refine ⟨⟨i, st.pageCount + 1, d.hash, b⟩ :: t, ?_, ?_⟩
      · rw [ht, hb]; simp
      · intro e he
        rcases List.mem_cons.1 he with rfl | he
        · exact ⟨rfl, by simp⟩
        · obtain ⟨hi, hh⟩ := hall e he
          exact ⟨hi, by simp only [List.map_cons, List.mem_cons]; exact Or.inr hh⟩

theorem persistOne_SeqInv {ctx : Ctx} {i : Nat} {st : LoopState} {d : ImgData}
    (h : SeqInv st) : SeqInv (persistOne ctx i st d) := by
  obtain ⟨hc, hl⟩ := h
  obtain ⟨b, hb, hpc⟩ := persistOne_log_pc ctx i st d
  constructor
  · rw [hb, List.chain'_append]
    refine ⟨hc, List.chain'_singleton _, ?_⟩
    intro x hx y hy
    simp only [List.head?_cons, Option.mem_def, Option.some.injEq] at hy
    subst hy
    simp only [evStep]
    exact hl x hx
  · intro e he
    rw [hb, List.getLast?_concat] at he
    cases he
    rw [hpc]
    cases b <;> simp

theorem persistBatch_SeqInv {ctx : Ctx} {i : Nat} {st : LoopState} {ds : List ImgData}
    (h : SeqInv st) : SeqInv (persistBatch ctx i st ds) := by
  induction ds generalizing st with
  | nil => exact h
  | cons d ds ih =>
    unfold persistBatch
    split
    · exact h
    · exact ih (persistOne_SeqInv h)

theorem persistOne_SeqRange {ctx : Ctx} {i : Nat} {st : LoopState} {d : ImgData}
    (h : SeqRange st) : SeqRange (persistOne ctx i st d) := by
  obtain ⟨b, hb, hpc⟩ := persistOne_log_pc ctx i st d
  unfold SeqRange at h ⊢
  rw [hb, hpc, List.filter_append]
  cases b
  · simpa using h
  · simp only [List.filter_cons, List.map_append, h]
    simp [List.range'_concat, Nat.add_comm]

theorem persistBatch_SeqRange {ctx : Ctx} {i : Nat} {st : LoopState} {ds : List ImgData}
    (h : SeqRange st) : SeqRange (persistBatch ctx i st ds) := by
  induction ds generalizing st with
  | nil => exact h
  | cons d ds ih =>
    unfold persistBatch
    split
    · exact h
    · exact ih (persistOne_SeqRange h)

theorem persistBatch_cap {ctx : Ctx} {i : Nat} {st : LoopState} {ds : List ImgData} {N : Nat}
    (hmp : ctx.maxPages = some N) (hN : N ≠ 0) (h : CapInv N st) :
    CapInv N (persistBatch ctx i st ds) := by
  induction ds generalizing st with
  | nil => exact h
  | cons d ds ih =>
    unfold persistBatch
    split
    · exact h
    · next hcap =>
      obtain ⟨hpcN, hseq⟩ := h
      have hlt : st.pageCount < N := by
        rw [hmp, pyCap_some, if_neg hN] at hcap
        have hnle : ¬ N ≤ st.pageCount := by simpa using hcap
        omega
      apply ih
      obtain ⟨b, hb, hpc⟩ := persistOne_log_pc ctx i st d
      refine ⟨?_, ?_⟩
      · rw [hpc]; cases b <;> simp <;> omega
      · intro e he
        rw [hb] at he
        rcases List.mem_append.1 he with he | he
        · exact hseq e he
        · simp only [List.mem_singleton] at he
          subst he
          simpa using hlt

/-! Lemmas about one body pass of the capture loop. -/

theorem afterScan_seen (ctx : Ctx) (i : Nat) (inp : IterInput) (st : LoopState) :
    (afterScan ctx i inp st).seen =
      st.seen ++ ((collectNewBlobs 1000 850 st.seen inp.imgs inp.canvases).1).map
        (fun d => d.hash) := by
  unfold afterScan
  exact (persistBatch_fields _ _ _ _).1

theorem afterScan_scans (ctx : Ctx) (i : Nat) (inp : IterInput) (st : LoopState) :
    (afterScan ctx i inp st).scans = st.scans + 1 := by
  unfold afterScan
  exact (persistBatch_fields _ _ _ _).2.1

theorem afterScan_scrollCount (ctx : Ctx) (i : Nat) (inp : IterInput) (st : LoopState) :
    (afterScan ctx i inp st).scrollCount = st.scrollCount + 1 := by
  unfold afterScan
  dsimp only
  rw [(persistBatch_fields _ _ _ _).2.2.2]

theorem afterScan_noNew (ctx : Ctx) (i : Nat) (inp : IterInput) (st : LoopState) :
    (afterScan ctx i inp st).noNew =
      if (collectNewBlobs 1000 850 st.seen inp.imgs inp.canvases).1 = [] then st.noNew + 1
      else 0 := rfl

theorem afterScan_log (ctx : Ctx) (i : Nat) (inp : IterInput) (st : LoopState) :
    ∃ t, (afterScan ctx i inp st).log = st.log ++ t ∧
      ∀ e ∈ t, e.iter = i ∧
        e.hash ∈ ((collectNewBlobs 1000 850 st.seen inp.imgs inp.canvases).1).map
          (fun d => d.hash) := by
  unfold afterScan
  dsimp only
  obtain ⟨t, ht, hall⟩ := persistBatch_log ctx i _ (collectNewBlobs 1000 850 st.seen inp.imgs inp.canvases).1
  exact ⟨t, ht, hall⟩

theorem finalPass_seen (ctx : Ctx) (i : Nat) (inp : IterInput) (st : LoopState) :
    (finalPass ctx i inp st).seen =
      st.seen ++ ((collectNewBlobs 1000 850 st.seen inp.finalImgs inp.finalCanvases).1).map
        (fun d => d.hash) := by
  unfold finalPass
  exact (persistBatch_fields _ _ _ _).1

theorem finalPass_scans (ctx : Ctx) (i : Nat) (inp : IterInput) (st : LoopState) :
    (finalPass ctx i inp st).scans = st.scans + 1 := by
  unfold finalPass
  exact (persistBatch_fields _ _ _ _).2.1

theorem finalPass_scrollCount (ctx : Ctx) (i : Nat) (inp : IterInput) (st : LoopState) :
    (finalPass ctx i inp st).scrollCount = st.scrollCount := by
  unfold finalPass
  exact (persistBatch_fields _ _ _ _).2.2.2

theorem finalPass_log (ctx : Ctx) (i : Nat) (inp : IterInput) (st : LoopState) :
    ∃ t, (finalPass ctx i inp st).log = st.log ++ t ∧
      ∀ e ∈ t, e.iter = i ∧
        e.hash ∈ ((collectNewBlobs 1000 850 st.seen inp.finalImgs inp.finalCanvases).1).map
          (fun d => d.hash) := by
  unfold finalPass
  dsimp only
  obtain ⟨t, ht, hall⟩ := persistBatch_log ctx i _ (collectNewBlobs 1000 850 st.seen inp.finalImgs inp.finalCanvases).1
  exact ⟨t, ht, hall⟩

theorem loopIter_spec (ctx : Ctx) (i : Nat) (inp : IterInput) (st : LoopState) :
    (∀ a ∈ st.seen, a ∈ (outState (loopIter ctx i inp st)).seen) ∧
    ∃ t, (outState (loopIter ctx i inp st)).log = st.log ++ t ∧
      ∀ e ∈ t, e.iter = i ∧ e.hash ∈ (outState (loopIter ctx i inp st)).seen ∧
        e.hash ∉ st.seen := by
  unfold loopIter
  split
  · exact ⟨fun a ha => ha, [], by simp [outState], by simp⟩
  · dsimp only
    split
    · -- corroborated at-end: afterScan then finalPass
      simp only [outState]
      obtain ⟨t1, ht1, hall1⟩ := afterScan_log ctx i inp st
      obtain ⟨t2, ht2, hall2⟩ := finalPass_log ctx i inp (afterScan ctx i inp st)
      have hsub1 : ∀ a ∈ st.seen, a ∈ (afterScan ctx i inp st).seen := by
        intro a ha; rw [afterScan_seen]; exact List.mem_append_left _ ha
      have hsub2 : ∀ a ∈ (afterScan ctx i inp st).seen,
          a ∈ (finalPass ctx i inp (afterScan ctx i inp st)).seen := by
        intro a ha; rw [finalPass_seen]; exact List.mem_append_left _ ha
      refine ⟨fun a ha => hsub2 a (hsub1 a ha), t1 ++ t2, by rw [ht2, ht1, List.append_assoc], ?_⟩
      intro e he
      rcases List.mem_append.1 he with he | he
      · obtain ⟨hi, hh⟩ := hall1 e he
        refine ⟨hi, ?_, collect_fresh hh⟩
        apply hsub2
        rw [afterScan_seen]
        exact List.mem_append_right _ hh
      · obtain ⟨hi, hh⟩ := hall2 e he
        refine ⟨hi, ?_, ?_⟩
        · rw [finalPass_seen]
          exact List.mem_append_right _ hh
        · intro hmem
          exact collect_fresh hh (hsub1 _ hmem)
    · -- continue into the next iteration
      simp only [outState]
      obtain ⟨t1, ht1, hall1⟩ := afterScan_log ctx i inp st
      have hsub1 : ∀ a ∈ st.seen, a ∈ (afterScan ctx i inp st).seen := by
        intro a ha; rw [afterScan_seen]; exact List.mem_append_left _ ha
      refine ⟨hsub1, t1, ht1, ?_⟩
      intro e he
      obtain ⟨hi, hh⟩ := hall1 e he
      refine ⟨hi, ?_, collect_fresh hh⟩
      rw [afterScan_seen]
      exact List.mem_append_right _ hh

theorem loopIter_inl {ctx : Ctx} {i : Nat} {inp : IterInput} {st st1 : LoopState}
    (h : loopIter ctx i inp st = .inl st1) : st1 = afterScan ctx i inp st := by
  unfold loopIter at h
  split at h
  · cases h
  · dsimp only at h
    split at h
    · cases h
    · cases h; rfl

theorem loopIter_inr {ctx : Ctx} {i : Nat} {inp : IterInput} {st s : LoopState} {r : Reason}
    (h : loopIter ctx i inp st = .inr (s, r)) :
    (s = st ∧ r = .capped) ∨ (s = finalPass ctx i inp (afterScan ctx i inp st) ∧ r = .atEnd) := by
  unfold loopIter at h
  split at h
  · cases h; exact Or.inl ⟨rfl, rfl⟩
  · dsimp only at h
    split at h
    · cases h; exact Or.inr ⟨rfl, rfl⟩
    · cases h


/-! Lemmas about the whole loop. -/

theorem loopGo_inv (ctx : Ctx) (stream : Nat → IterInput) (P : LoopState → Prop)
    (hstep : ∀ i inp st, P st → P (outState (loopIter ctx i inp st))) :
    ∀ fuel i st, P st → P (loopGo ctx stream i fuel st).1 := by
  intro fuel
  induction fuel with
  | zero =>
    intro i st h
    unfold loopGo
    split <;> exact h
  | succ n ih =>
    intro i st h
    unfold loopGo
    split
    · exact h
    · rcases hit : loopIter ctx i (stream i) st with st1 | r
      · have h1 : P st1 := by
          have := hstep i (stream i) st h
          rwa [hit] at this
        simpa using ih (i + 1) st1 h1
      · obtain ⟨s, reason⟩ := r
        have h1 : P s := by
          have := hstep i (stream i) st h
          rwa [hit] at this
        simpa using h1

theorem loopIter_LogInv (ctx : Ctx) (i : Nat) (inp : IterInput) (st : LoopState)
    (h : LogInv st) : LogInv (outState (loopIter ctx i inp st)) := by
  obtain ⟨hsub, t, hlog, ht⟩ := loopIter_spec ctx i inp st
  constructor
  · intro e he
    rw [hlog] at he
    rcases List.mem_append.1 he with he | he
    · exact hsub _ (h.1 e he)
    · exact (ht e he).2.1
  · intro e1 h1 e2 h2 hne
    rw [hlog] at h1 h2
    rcases List.mem_append.1 h1 with o1 | n1 <;> rcases List.mem_append.1 h2 with o2 | n2
    · exact h.2 e1 o1 e2 o2 hne
    · intro heq; exact (ht e2 n2).2.2 (heq ▸ h.1 e1 o1)
    · intro heq; exact (ht e1 n1).2.2 (heq ▸ h.1 e2 o2)
    · exact absurd ((ht e1 n1).1.trans ((ht e2 n2).1).symm) hne

theorem loopIter_SeqInv (ctx : Ctx) (i : Nat) (inp : IterInput) (st : LoopState)
    (h : SeqInv st) : SeqInv (outState (loopIter ctx i inp st)) := by
  unfold loopIter
  split
  · exact h
  · dsimp only
    have h4 : SeqInv (afterScan ctx i inp st) := by
      unfold afterScan
      dsimp only
      exact persistBatch_SeqInv h
    split
    · simp only [outState]
      unfold finalPass
      dsimp only
      exact persistBatch_SeqInv h4
    · exact h4

theorem loopIter_SeqRange (ctx : Ctx) (i : Nat) (inp : IterInput) (st : LoopState)
    (h : SeqRange st) : SeqRange (outState (loopIter ctx i inp st)) := by
  unfold loopIter
  split
  · exact h
  · dsimp only
    have h4 : SeqRange (afterScan ctx i inp st) := by
      unfold afterScan
      dsimp only
      exact persistBatch_SeqRange h
    split
    · simp only [outState]
      unfold finalPass
      dsimp only
      exact persistBatch_SeqRange h4
    · exact h4

theorem loopIter_CapInv {ctx : Ctx} {N : Nat} (hmp : ctx.maxPages = some N) (hN : N ≠ 0)
    (i : Nat) (inp : IterInput) (st : LoopState)
    (h : CapInv N st) : CapInv N (outState (loopIter ctx i inp st)) := by
  unfold loopIter
  split
  · exact h
  · dsimp only
    have h4 : CapInv N (afterScan ctx i inp st) := by
      unfold afterScan
      dsimp only
      exact persistBatch_cap hmp hN h
    split
    · simp only [outState]
      unfold finalPass
      dsimp only
      exact persistBatch_cap hmp hN h4
    · exact h4

theorem loopGo_bounds (ctx : Ctx) (stream : Nat → IterInput) :
    ∀ fuel i st,
      (loopGo ctx stream i fuel st).1.scrollCount ≤ st.scrollCount + fuel ∧
      (loopGo ctx stream i fuel st).1.scans ≤ st.scans + fuel + 1 := by
  intro fuel
  induction fuel with
  | zero =>
    intro i st
    unfold loopGo
    split <;> exact ⟨Nat.le_refl _, Nat.le_succ _⟩
  | succ n ih =>
    intro i st
    unfold loopGo
    split
    · exact ⟨Nat.le_add_right _ _, by show st.scans ≤ st.scans + (n + 1) + 1; omega⟩
    · rcases hit : loopIter ctx i (stream i) st with st1 | r
      · have hst1 : st1 = afterScan ctx i (stream i) st := loopIter_inl hit
        have h1 := ih (i + 1) st1
        have e1 : st1.scrollCount = st.scrollCount + 1 := by
          rw [hst1]; exact afterScan_scrollCount _ _ _ _
        have e2 : st1.scans = st.scans + 1 := by
          rw [hst1]; exact afterScan_scans _ _ _ _
        simp only []
        constructor
        · calc (loopGo ctx stream (i + 1) n st1).1.scrollCount
              ≤ st1.scrollCount + n := h1.1
            _ = st.scrollCount + (n + 1) := by omega
        · calc (loopGo ctx stream (i + 1) n st1).1.scans
              ≤ st1.scans + n + 1 := h1.2
            _ ≤ st.scans + (n + 1) + 1 := by omega
      · obtain ⟨s, reason⟩ := r
        simp only []
        rcases loopIter_inr hit with ⟨rfl, _⟩ | ⟨rfl, _⟩
        · exact ⟨Nat.le_add_right _ _, by omega⟩
        · constructor
          · rw [finalPass_scrollCount, afterScan_scrollCount]; omega
          · rw [finalPass_scans, afterScan_scans]; omega


theorem collect_results_high {minW fbW : Nat} {seen : List (List Char)}
    {imgs : List ImgElem} {cvs : List CanvasElem}
    (h : (scanCandidates fbW seen imgs cvs).filter (fun d => decide (minW ≤ d.width)) ≠ []) :
    (collectNewBlobs minW fbW seen imgs cvs).1 =
      (scanCandidates fbW seen imgs cvs).filter (fun d => decide (minW ≤ d.width)) := by
  unfold collectNewBlobs
  dsimp only
  rw [buckets_eq]
  dsimp only
  rw [if_neg (fun hc => h hc.1)]

theorem collect_results_low {minW fbW : Nat} {seen : List (List Char)}
    {imgs : List ImgElem} {cvs : List CanvasElem}
    (h : (scanCandidates fbW seen imgs cvs).filter (fun d => decide (minW ≤ d.width)) = []) :
    (collectNewBlobs minW fbW seen imgs cvs).1 =
      (scanCandidates fbW seen imgs cvs).filter (fun d => decide (d.width < minW)) := by
  unfold collectNewBlobs
  dsimp only
  rw [buckets_eq]
  dsimp only
  by_cases hlow :
      (scanCandidates fbW seen imgs cvs).filter (fun d => decide (d.width < minW)) = []
  · rw [if_neg (fun hc => hc.2 hlow), h, hlow]
  · rw [if_pos ⟨h, hlow⟩]

theorem persistBatch_all_ok_cap {ctx : Ctx} (i : Nat) :
    ∀ (ds : List ImgData) (st : LoopState),
      (∀ k, k < ds.length → pyCap ctx.maxPages (st.pageCount + k) = false) →
      (∀ d ∈ ds, PersistOk ctx d) →
      (persistBatch ctx i st ds).pageCount = st.pageCount + ds.length := by
  intro ds
  induction ds with
  | nil => intro st _ _; simp [persistBatch]
  | cons d ds ih =>
    intro st hcap hok
    unfold persistBatch
    have h0 : pyCap ctx.maxPages st.pageCount = false := by
      have h00 := hcap 0 (by simp)
      simpa using h00
    rw [h0, if_neg (by simp)]
    obtain ⟨hd, dt, hsp, hdec⟩ := hok d (List.mem_cons_self d ds)
    have hps : (persistOne ctx i st d).pageCount = st.pageCount + 1 := by
      unfold persistOne
      rw [hsp]
      dsimp only
      rcases hdc : ctx.decode dt with _ | bytes
      · rw [hdc] at hdec; simp at hdec
      · rfl
    have hcap2 : ∀ k, k < ds.length →
        pyCap ctx.maxPages ((persistOne ctx i st d).pageCount + k) = false := by
      intro k hk
      have harith : (persistOne ctx i st d).pageCount + k = st.pageCount + (k + 1) := by
        rw [hps]; omega
      rw [harith]
      exact hcap (k + 1) (by simp only [List.length_cons]; omega)
    rw [ih (persistOne ctx i st d) hcap2 (fun e he => hok e (List.mem_cons_of_mem _ he)), hps]
    simp [List.length_cons]
    omega

/-! Claim theorems. -/

/-- C6: the fingerprint is a deterministic pure function of the payload:
byte-identical payloads get identical keys; when the data segment of the
payload is shorter than the minimum length 1000, the key is the whole
segment; otherwise the key is the concatenation of fixed-size windows
(200, 200 and 300 characters) sampled from the start, the middle and
the end of the data segment. -/
theorem c6_fingerprint_deterministic_and_windowed (u v : List Char) :
    (u = v → hashDataUrl u = hashDataUrl v) ∧
    ((jsSecond u).length < 1000 → hashDataUrl u = jsSecond u) ∧
    (1000 ≤ (jsSecond u).length →
      hashDataUrl u =
        ((jsSecond u).drop 100).take 200
          ++ ((jsSecond u).drop ((jsSecond u).length / 2)).take 200
          ++ (jsSecond u).drop ((jsSecond u).length - 300) ∧
      (((jsSecond u).drop 100).take 200).length = 200 ∧
      (((jsSecond u).drop ((jsSecond u).length / 2)).take 200).length = 200 ∧
      ((jsSecond u).drop ((jsSecond u).length - 300)).length = 300) := by
  refine ⟨fun h => h ▸ rfl, ?_, ?_⟩
  · intro h
    unfold hashDataUrl
    rw [if_pos h]
  · intro h
    unfold hashDataUrl
    rw [if_neg (by omega)]
    refine ⟨?_, ?_, ?_, ?_⟩
    · unfold jsSub
      rw [List.drop_take, List.drop_take]
      norm_num [Nat.add_sub_cancel_left]
    · rw [List.length_take, List.length_drop]
      exact Nat.min_eq_left (by omega)
    · rw [List.length_take, List.length_drop]
      exact Nat.min_eq_left (by omega)
    · rw [List.length_drop]
      omega

/-- C6 witness: a concrete data URL with a 995-character segment, on the
short branch. -/
theorem c6_fingerprint_deterministic_and_windowed_witness :
    hashDataUrl urlA = jsSecond urlA :=
  (c6_fingerprint_deterministic_and_windowed urlA urlA).2.1 (by decide)

/-- C7: candidates passing the size filters are bucketed by intrinsic
width against min_width; a scan returns exactly the high-resolution
bucket whenever that bucket is nonempty (discarding the low-resolution
bucket), otherwise the low-resolution bucket; and no returned candidate
is below fallback_min_width. -/
theorem c7_scan_returns_high_bucket_or_low_fallback (minW fbW : Nat)
    (seen : List (List Char)) (imgs : List ImgElem) (cvs : List CanvasElem) :
    ((scanCandidates fbW seen imgs cvs).filter (fun d => decide (minW ≤ d.width)) ≠ [] →
      (collectNewBlobs minW fbW seen imgs cvs).1 =
        (scanCandidates fbW seen imgs cvs).filter (fun d => decide (minW ≤ d.width))) ∧
    ((scanCandidates fbW seen imgs cvs).filter (fun d => decide (minW ≤ d.width)) = [] →
      (collectNewBlobs minW fbW seen imgs cvs).1 =
        (scanCandidates fbW seen imgs cvs).filter (fun d => decide (d.width < minW))) ∧
    ∀ d ∈ (collectNewBlobs minW fbW seen imgs cvs).1, fbW ≤ d.width := by
  refine ⟨?_, ?_, ?_⟩
  · intro hne
    unfold collectNewBlobs
    dsimp only
    rw [buckets_eq]
    dsimp only
    rw [if_neg (fun hc => hne hc.1)]
  · intro he
    unfold collectNewBlobs
    dsimp only
    rw [buckets_eq]
    dsimp only
    by_cases hlow :
        (scanCandidates fbW seen imgs cvs).filter (fun d => decide (d.width < minW)) = []
    · rw [if_neg (fun hc => hc.2 hlow), he, hlow]
    · rw [if_pos ⟨he, hlow⟩]
  · intro d hd
    exact scanCandidates_width (collect_results_subset hd)

/-- C7 witness: one high-resolution candidate; the scan returns exactly
the high-resolution bucket. -/
theorem c7_scan_returns_high_bucket_or_low_fallback_witness :
    (collectNewBlobs 1000 850 [] [imgH] []).1 =
      (scanCandidates 850 [] [imgH] []).filter (fun d => decide (1000 ≤ d.width)) :=
  (c7_scan_returns_high_bucket_or_low_fallback 1000 850 [] [imgH] []).1 (by decide)

/-- C9 counterexample: two distinct candidates of the same scan share a
fresh fingerprint (the same data URL at widths 1200 and 900); both are
observed by the scan, but only the high-resolution one is returned, so
the claim that both are returned and persisted is false. -/
theorem c9_counterexample_low_res_twin_discarded :
    scanCandidates 850 [] [imgH, imgL] [] =
      [⟨urlA, 1200, 1600, dataA⟩, ⟨urlA, 900, 1600, dataA⟩] ∧
    (collectNewBlobs 1000 850 [] [imgH, imgL] []).1 = [⟨urlA, 1200, 1600, dataA⟩] := by
  constructor
  · decide
  · decide

/-- C9 as amended: within one scan every membership test happens against
the seen set as it was when the scan started (insertions happen only at
the end), so same-scan candidates are not filtered against each other:
every candidate observed by the scan carries a fingerprint not yet in
the seen set; every high-resolution candidate is returned; a
low-resolution candidate is returned when no high-resolution candidate
exists in the scan, and is not returned when one does (twins falling in
different buckets lose their low-resolution copy); and a batch of k
returned candidates all of whose writes succeed, run where the
per-candidate cap check never fires (no cap, or a cap the batch does
not reach), is persisted as k separate page files: the counter advances
once per candidate. -/
theorem c9_amended_same_scan_duplicates_within_bucket (minW fbW : Nat)
    (seen : List (List Char)) (imgs : List ImgElem) (cvs : List CanvasElem)
    (ctx : Ctx) (i : Nat) (st : LoopState) (ds : List ImgData) :
    (∀ d ∈ scanCandidates fbW seen imgs cvs,
      d.hash ∉ seen ∧
      (minW ≤ d.width → d ∈ (collectNewBlobs minW fbW seen imgs cvs).1) ∧
      (d.width < minW →
        ((∀ e ∈ scanCandidates fbW seen imgs cvs, e.width < minW) →
          d ∈ (collectNewBlobs minW fbW seen imgs cvs).1) ∧
        ((∃ e ∈ scanCandidates fbW seen imgs cvs, minW ≤ e.width) →
          d ∉ (collectNewBlobs minW fbW seen imgs cvs).1))) ∧
    ((∀ k, k < ds.length → pyCap ctx.maxPages (st.pageCount + k) = false) →
      (∀ d ∈ ds, PersistOk ctx d) →
      (persistBatch ctx i st ds).pageCount = st.pageCount + ds.length) := by
  constructor
  · intro d hd
    refine ⟨scanCandidates_fresh hd, ?_, ?_⟩
    · intro hw
      have hdm : d ∈ (scanCandidates fbW seen imgs cvs).filter
          (fun e => decide (minW ≤ e.width)) :=
        List.mem_filter.2 ⟨hd, by simpa using hw⟩
      rw [collect_results_high (List.ne_nil_of_mem hdm)]
      exact hdm
    · intro hlt
      constructor
      · intro hall
        have he : (scanCandidates fbW seen imgs cvs).filter
            (fun e => decide (minW ≤ e.width)) = [] := by
          rw [List.filter_eq_nil_iff]
          intro e hel
          have hew := hall e hel
          simp only [decide_eq_true_eq]
          omega
        rw [collect_results_low he]
        exact List.mem_filter.2 ⟨hd, by simpa using hlt⟩
      · rintro ⟨e, he, hwe⟩
        have hem : e ∈ (scanCandidates fbW seen imgs cvs).filter
            (fun a => decide (minW ≤ a.width)) :=
          List.mem_filter.2 ⟨he, by simpa using hwe⟩
        rw [collect_results_high (List.ne_nil_of_mem hem)]
        intro hmem
        have hdw : minW ≤ d.width := by simpa using (List.mem_filter.1 hmem).2
        omega
  · intro hcap hok
    exact persistBatch_all_ok_cap i ds st hcap hok

/-- C9 witness for the amended claim: a lone low-resolution candidate is
returned when no high-resolution one exists, the same low-resolution
twin is not returned when its high-resolution twin is present, and a
one-candidate all-success batch under a set but unreached cap
(max_pages = 5) advances the counter by one. -/
theorem c9_amended_same_scan_duplicates_within_bucket_witness :
    (⟨urlA, 900, 1600, dataA⟩ : ImgData) ∈ (collectNewBlobs 1000 850 [] [imgL] []).1 ∧
    (⟨urlA, 900, 1600, dataA⟩ : ImgData) ∉ (collectNewBlobs 1000 850 [] [imgH, imgL] []).1 ∧
    (persistBatch ctx5 0 initState [⟨urlA, 1200, 1600, dataA⟩]).pageCount =
      initState.pageCount + 1 := by
  refine ⟨?_, ?_, ?_⟩
  · exact (((c9_amended_same_scan_duplicates_within_bucket 1000 850 [] [imgL] [] ctx5 0
      initState []).1 _ (by decide)).2.2 (by decide)).1 (by decide)
  · exact (((c9_amended_same_scan_duplicates_within_bucket 1000 850 [] [imgH, imgL] [] ctx5 0
      initState []).1 _ (by decide)).2.2 (by decide)).2
      ⟨⟨urlA, 1200, 1600, dataA⟩, by decide, by decide⟩
  · refine (c9_amended_same_scan_duplicates_within_bucket 1000 850 [] [imgH] [] ctx5 0
      initState [⟨urlA, 1200, 1600, dataA⟩]).2 (by decide) ?_
    intro d hdm
    simp only [List.mem_singleton] at hdm
    subst hdm
    exact ⟨['d', 'a', 't', 'a', ':', 'p', 'n', 'g'], dataA, by decide, by decide⟩

/-- C1: within one capture run, once a fingerprint has been inserted into
the seen set (which happens exactly when a scan returns a candidate
carrying it), no later loop iteration persists a candidate with that
fingerprint: two pages persisted in distinct iterations never share a
fingerprint. -/
theorem c1_no_duplicate_fingerprints_across_iterations (ctx : Ctx) (tp est : Option Nat)
    (stream : Nat → IterInput) (e1 e2 : Ev)
    (h1 : e1 ∈ (runCapture ctx tp est stream).1.log)
    (h2 : e2 ∈ (runCapture ctx tp est stream).1.log)
    (hne : e1.iter ≠ e2.iter) (_ho1 : e1.ok = true) (_ho2 : e2.ok = true) :
    e1.hash ≠ e2.hash := by
  have h0 : LogInv initState :=
    ⟨fun e he => absurd he (List.not_mem_nil e),
     fun e1 he1 => absurd he1 (List.not_mem_nil e1)⟩
  have hinv : LogInv (runCapture ctx tp est stream).1 := by
    unfold runCapture
    exact loopGo_inv ctx stream LogInv (loopIter_LogInv ctx) _ 0 initState h0
  exact hinv.2 e1 h1 e2 h2 hne

/-- C1 witness: a run persisting one page in iteration 0 and one in
iteration 1; their fingerprints differ. -/
theorem c1_no_duplicate_fingerprints_across_iterations_witness :
    (⟨0, 1, dataA, true⟩ : Ev) ∈ (runCapture ctxOk none none streamAB).1.log ∧
    (⟨1, 2, dataB, true⟩ : Ev) ∈ (runCapture ctxOk none none streamAB).1.log ∧
    dataA ≠ dataB := by
  refine ⟨by decide, by decide, ?_⟩
  exact c1_no_duplicate_fingerprints_across_iterations ctxOk none none streamAB
    ⟨0, 1, dataA, true⟩ ⟨1, 2, dataB, true⟩ (by decide) (by decide) (by decide) rfl rfl

/-- C2 counterexample: the python persister opens the file before
decoding (open, then f.write(b64decode(data))), so a decode failure
leaves a stray empty page file behind.  In this run all decodes fail:
the returned page count is 0, yet page_0001.png exists in the output
directory, so the files present do not carry sequence numbers exactly
1..K. -/
theorem c2_counterexample_stray_empty_file :
    (runCapture ctxBad none none streamX).1.pageCount = 0 ∧
    (runCapture ctxBad none none streamX).1.fs = [((1, Ext.png), [])] := by
  constructor
  · decide
  · decide

/-- C2 as amended: the sequence numbers of the successful page writes,
in log order, are exactly 1..K where K is the returned page count; a
failed persist decrements the counter so the very next successful
persist reuses that sequence number, and a failure never aborts the run
(the theorem holds for every decode oracle and every stream); however a
persist that fails after its file was opened leaves a stray empty file,
so the directory may hold an extra empty file beside the 1..K pages. -/
theorem c2_amended_successful_writes_contiguous (ctx : Ctx) (tp est : Option Nat)
    (stream : Nat → IterInput) :
    (((runCapture ctx tp est stream).1.log.filter (fun e => e.ok)).map (fun e => e.seq)) =
      List.range' 1 (runCapture ctx tp est stream).1.pageCount := by
  have h0 : SeqRange initState := by
    unfold SeqRange initState
    simp
  have hinv : SeqRange (runCapture ctx tp est stream).1 := by
    unfold runCapture
    exact loopGo_inv ctx stream SeqRange (loopIter_SeqRange ctx) _ 0 initState h0
  exact hinv

/-- C3 counterexample: a run with max_pages = 5 over a document that
ends immediately terminates through the corroborated at-end exit, not
the cap exit, so a run with a cap set does not in general terminate
with reason capped (and the python function reports no reason at all,
it returns only the count). -/
theorem c3_counterexample_cap_set_but_reason_not_capped :
    (runCapture ctx5 none none streamEnd).2 = Reason.atEnd ∧
    Reason.atEnd ≠ Reason.capped := by
  constructor
  · decide
  · decide

/-- C3 as amended: with max_pages = N > 0 the run writes at most N pages:
the cap is checked before each scan and before persisting each candidate
of a batch, so the page counter never exceeds N and every sequence
number ever reserved is at most N; but the run need not terminate
through the cap exit (the document can end or stall first), and the
code exposes no termination reason to its caller. -/
theorem c3_amended_cap_never_overshoots (N : Nat) (tp est : Option Nat)
    (decode : List Char → Option (List Char)) (stream : Nat → IterInput) (hN : 0 < N) :
    (runCapture ⟨some N, decode⟩ tp est stream).1.pageCount ≤ N ∧
    ∀ e ∈ (runCapture ⟨some N, decode⟩ tp est stream).1.log, e.seq ≤ N := by
  have h0 : CapInv N initState :=
    ⟨Nat.zero_le _, fun e he => absurd he (List.not_mem_nil e)⟩
  have hinv : CapInv N (runCapture ⟨some N, decode⟩ tp est stream).1 := by
    unfold runCapture
    exact loopGo_inv _ stream (CapInv N)
      (fun i inp st h => loopIter_CapInv rfl (by omega) i inp st h) _ 0 initState h0
  exact hinv

/-- C3 witness for the amended claim: max_pages = 1 against a scan
yielding two candidates; the run writes exactly one page. -/
theorem c3_amended_cap_never_overshoots_witness :
    0 < 1 ∧ (runCapture ⟨some 1, decOk⟩ none none streamAB0).1.pageCount ≤ 1 :=
  ⟨Nat.one_pos, (c3_amended_cap_never_overshoots 1 none none decOk streamAB0 Nat.one_pos).1⟩


/-- C4: when the scroll driver reports atEnd and the independent
getScrollInfo read (position against extent with the 50 pixel margin)
corroborates it, the loop performs exactly one additional
settle-and-rescan pass (one more scan, counted by the ghost scans
counter, with its candidates persisted) and terminates immediately (the
result does not depend on the remaining fuel); when the corroborating
read disagrees, the loop continues into the next iteration. -/
theorem c4_corroborated_at_end_one_extra_pass (ctx : Ctx) (stream : Nat → IterInput)
    (i fuel : Nat) (st : LoopState)
    (hcap : pyCap ctx.maxPages st.pageCount = false) (hnn : st.noNew < 15) :
    (((advance (stream i).scroll).atEnd && infoAtEnd (stream i).info) = true →
      (loopGo ctx stream i (fuel + 1) st).2 = Reason.atEnd ∧
      (loopGo ctx stream i (fuel + 1) st).1.scans = st.scans + 2 ∧
      ∀ g, loopGo ctx stream i (g + 1) st = loopGo ctx stream i (fuel + 1) st) ∧
    (((advance (stream i).scroll).atEnd && infoAtEnd (stream i).info) = false →
      ∃ st1, loopIter ctx i (stream i) st = .inl st1 ∧
        loopGo ctx stream i (fuel + 1) st = loopGo ctx stream (i + 1) fuel st1) := by
  have hloop : ∀ g, loopGo ctx stream i (g + 1) st =
      match loopIter ctx i (stream i) st with
      | .inl st1 => loopGo ctx stream (i + 1) g st1
      | .inr r => r := by
    intro g
    simp only [loopGo]
    rw [if_neg (by omega)]
  constructor
  · intro hend
    have hit : loopIter ctx i (stream i) st =
        .inr (finalPass ctx i (stream i) (afterScan ctx i (stream i) st), .atEnd) := by
      unfold loopIter
      rw [if_neg (by simp [hcap])]
      dsimp only
      rw [if_pos hend]
    refine ⟨?_, ?_, ?_⟩
    · rw [hloop fuel, hit]
    · rw [hloop fuel, hit]
      dsimp only
      rw [finalPass_scans, afterScan_scans]
    · intro g
      rw [hloop g, hloop fuel, hit]
  · intro hend
    have hit : loopIter ctx i (stream i) st = .inl (afterScan ctx i (stream i) st) := by
      unfold loopIter
      rw [if_neg (by simp [hcap])]
      dsimp only
      rw [if_neg (by simp [hend])]
    exact ⟨_, hit, by rw [hloop fuel, hit]⟩

/-- C4 witness: a corroborated at-end on iteration 0 terminates the run
with the at-end exit. -/
theorem c4_corroborated_at_end_one_extra_pass_witness :
    (loopGo ctxOk streamEnd 0 4 initState).2 = Reason.atEnd ∧
    (loopGo ctxOk streamEnd 0 4 initState).1.scans = initState.scans + 2 := by
  have h := (c4_corroborated_at_end_one_extra_pass ctxOk streamEnd 0 3 initState
    (by decide) (by decide)).1 (by decide)
  exact ⟨h.1, h.2.1⟩

/-- C5: the loop maintains no_new_count, incremented when a scan returns
no candidates and reset to 0 otherwise; and the loop never executes
another body pass once the counter has reached 15: it returns
immediately with the stalled exit, whatever the remaining fuel and
whatever the stream would have supplied. -/
theorem c5_fifteen_consecutive_stalls_terminate (ctx : Ctx) (stream : Nat → IterInput)
    (i fuel : Nat) (st : LoopState) :
    (15 ≤ st.noNew → loopGo ctx stream i fuel st = (st, Reason.stalled)) ∧
    (∀ inp st1, loopIter ctx i inp st = .inl st1 →
      st1.noNew =
        if (collectNewBlobs 1000 850 st.seen inp.imgs inp.canvases).1 = [] then st.noNew + 1
        else 0) := by
  constructor
  · intro h
    cases fuel <;> unfold loopGo <;> rw [if_pos h]
  · intro inp st1 h
    rw [loopIter_inl h]
    exact afterScan_noNew ctx i inp st

/-- C5 witness: with the counter at 15, the loop exits stalled at once;
and an empty scan bumps the counter of the continuing state. -/
theorem c5_fifteen_consecutive_stalls_terminate_witness :
    loopGo ctxOk streamNothing 0 9 ⟨[], 0, 15, 0, 0, [], []⟩ =
      (⟨[], 0, 15, 0, 0, [], []⟩, Reason.stalled) :=
  (c5_fifteen_consecutive_stalls_terminate ctxOk streamNothing 0 9
    ⟨[], 0, 15, 0, 0, [], []⟩).1 (by decide)

/-- C8: the number of scroll attempts of a run is bounded by the absolute
cap (max_pages if set, else the detected total, else the default 500)
multiplied by 3, and the number of scans is bounded by one more than
that, against every stream, so the loop always terminates even on a
surface that never reports an end and never stalls.  Being set/detected
means carrying a positive value (python treats 0 like None here). -/
theorem c8_absolute_scroll_attempt_cap (mp tp est : Option Nat)
    (decode : List Char → Option (List Char)) (stream : Nat → IterInput)
    (hmp : ∀ n, mp = some n → 0 < n)
    (htp : ∀ n, pyOrOpt tp est = some n → 0 < n) :
    (runCapture ⟨mp, decode⟩ tp est stream).1.scrollCount ≤
      capBase mp (pyOrOpt tp est) * 3 ∧
    (runCapture ⟨mp, decode⟩ tp est stream).1.scans ≤
      capBase mp (pyOrOpt tp est) * 3 + 1 := by
  have hbase : pyOrN mp (pyOrN (pyOrOpt tp est) 500) = capBase mp (pyOrOpt tp est) := by
    unfold capBase
    cases mp with
    | some n =>
      have hn := hmp n rfl
      show (if n = 0 then _ else n) = n
      rw [if_neg (by omega)]
    | none =>
      show pyOrN (pyOrOpt tp est) 500 = _
      cases htpe : pyOrOpt tp est with
      | some t =>
        have ht := htp t htpe
        show (if t = 0 then _ else t) = t
        rw [if_neg (by omega)]
      | none => rfl
  have hb := loopGo_bounds ⟨mp, decode⟩ stream
    ((pyOrN mp (pyOrN (pyOrOpt tp est) 500)) * 3) 0 initState
  rw [hbase] at hb
  refine ⟨?_, ?_⟩
  · show (loopGo ⟨mp, decode⟩ stream 0 ((pyOrN mp (pyOrN (pyOrOpt tp est) 500)) * 3)
      initState).1.scrollCount ≤ _
    rw [hbase]
    refine le_trans hb.1 ?_
    show 0 + capBase mp (pyOrOpt tp est) * 3 ≤ capBase mp (pyOrOpt tp est) * 3
    omega
  · show (loopGo ⟨mp, decode⟩ stream 0 ((pyOrN mp (pyOrN (pyOrOpt tp est) 500)) * 3)
      initState).1.scans ≤ _
    rw [hbase]
    refine le_trans hb.2 ?_
    show 0 + capBase mp (pyOrOpt tp est) * 3 + 1 ≤ capBase mp (pyOrOpt tp est) * 3 + 1
    omega

/-- C8 witness: with no cap and no detected total the bound is 1500; a
never-ending, never-yielding surface is still cut off (it stalls at 15
scroll attempts here, within the bound). -/
theorem c8_absolute_scroll_attempt_cap_witness :
    (runCapture ⟨none, decOk⟩ none none streamNothing).1.scrollCount ≤ 500 * 3 :=
  (c8_absolute_scroll_attempt_cap none none none decOk streamNothing
    (fun n h => by cases h) (fun n h => by simp [pyOrOpt] at h)).1

/-- C10: a fingerprint stays in the seen set even when persisting its
candidate fails (the persister never touches the seen set), so no scan
of any later iteration ever re-emits or re-persists a candidate with
that fingerprint (events of later iterations always carry different
hashes, success or not); and the reserved sequence numbers obey the
adjacency law evStep along the whole log: a failed persist releases its
number to the very next attempt. -/
theorem c10_failed_persist_fingerprint_stays_seen (ctx : Ctx) (tp est : Option Nat)
    (stream : Nat → IterInput) :
    (∀ e1 ∈ (runCapture ctx tp est stream).1.log,
      ∀ e2 ∈ (runCapture ctx tp est stream).1.log,
        e1.iter < e2.iter → e1.hash ≠ e2.hash) ∧
    (runCapture ctx tp est stream).1.log.Chain' evStep ∧
    ∀ i st ds, (persistBatch ctx i st ds).seen = st.seen := by
  refine ⟨?_, ?_, ?_⟩
  · have h0 : LogInv initState :=
      ⟨fun e he => absurd he (List.not_mem_nil e),
       fun e1 he1 => absurd he1 (List.not_mem_nil e1)⟩
    have hinv : LogInv (runCapture ctx tp est stream).1 := by
      unfold runCapture
      exact loopGo_inv ctx stream LogInv (loopIter_LogInv ctx) _ 0 initState h0
    exact fun e1 h1 e2 h2 hlt => hinv.2 e1 h1 e2 h2 (Nat.ne_of_lt hlt)
  · have h0 : SeqInv initState := by
      refine ⟨trivial, ?_⟩
      intro e he
      simp [initState] at he
    have hinv : SeqInv (runCapture ctx tp est stream).1 := by
      unfold runCapture
      exact loopGo_inv ctx stream SeqInv (loopIter_SeqInv ctx) _ 0 initState h0
    exact hinv.1
  · intro i st ds
    exact (persistBatch_fields ctx i st ds).1

/-- C10 witness: dataX fails to decode at iteration 0 and its number 1
is reused by dataA in the same batch; iteration 1 then persists dataB,
whose fingerprint must differ from the failed dataX. -/
theorem c10_failed_persist_fingerprint_stays_seen_witness :
    (⟨0, 1, dataX, false⟩ : Ev) ∈ (runCapture ctxNoX none none streamXAB).1.log ∧
    (⟨1, 2, dataB, true⟩ : Ev) ∈ (runCapture ctxNoX none none streamXAB).1.log ∧
    dataX ≠ dataB := by
  refine ⟨by decide, by decide, ?_⟩
  exact (c10_failed_persist_fingerprint_stays_seen ctxNoX none none streamXAB).1
    ⟨0, 1, dataX, false⟩ (by decide) ⟨1, 2, dataB, true⟩ (by decide) (by decide)


end BoxCapture
